import Mathlib

/-!
# Verification of the evm-faucet rate-limiting middleware

Shallow embedding of `internal/server/middleware.go` from upnodedev/evm-faucet.

The expiring key store (`jellydator/ttlcache` configured with
`SkipTTLExtensionOnHit(true)` in `NewLimiter`) is modelled as a map from
string keys to absolute expiry instants; time is a rational number of
seconds.  A `GetWithTTL` at instant `now` succeeds exactly when the key
holds an unexpired entry, and returns the remaining time to live; reads
never modify the store (the no-extension-on-hit configuration).

`Limiter.ServeHTTP` is embedded as a pure function from the pre-state of
the store, the current instant, the result of `readAddress`, and the
resolved client IP, to an outcome (error response / denial / forwarded)
together with the post-state of the store.  The post-handler rollback
(the `negroni` status inspection at the end of `ServeHTTP`) is embedded
separately as `afterHandler`.
-/

namespace EvmFaucet

/-- The expiring key store: each key optionally holds an absolute expiry
instant (insertion instant + TTL), as in `ttlcache`. -/
abbrev Store := String → Option ℚ

/-- The store with no entries. -/
def emptyStore : Store := fun _ => none

/-- `cache.GetWithTTL(key)` at instant `now`: present with its remaining
TTL while the entry is unexpired, absent otherwise.  Reads do not mutate
the store, matching `SkipTTLExtensionOnHit(true)` set in `NewLimiter`. -/
def getWithTTL (s : Store) (now : ℚ) (key : String) : Option ℚ :=
  match s key with
  | none => none
  | some expiry => if now < expiry then some (expiry - now) else none

/-- `cache.SetWithTTL(key, true, ttl)` at instant `now`. -/
def setWithTTL (s : Store) (now : ℚ) (key : String) (ttl : ℚ) : Store :=
  fun k => if k = key then some (now + ttl) else s k

/-- `cache.Remove(key)`. -/
def removeKey (s : Store) (key : String) : Store :=
  fun k => if k = key then none else s k

/-- Limiter configuration (`proxyCount`, `ttl`); the cache is passed
explicitly as a `Store`. -/
structure Limiter where
  proxyCount : Int
  ttl : ℚ

/-- `Limiter.checklimitByKey`: the remaining TTL of `key` when the cache
lookup succeeds, `0` otherwise. -/
def Limiter.checklimitByKey (s : Store) (now : ℚ) (key : String) : ℚ :=
  match getWithTTL s now key with
  | some ttl => ttl
  | none => 0

/-- Go `time.Duration.Round(time.Second)` on a nonnegative duration given
in seconds: nearest whole second, halves away from zero. -/
def roundDurationToSecond (q : ℚ) : Int := round q

/-- Go `math.Round` on a nonnegative float: nearest integer, halves away
from zero. -/
def mathRound (q : ℚ) : Int := round q

/-- The body of a limiter response.  The two denial messages are kept
structurally distinct because the source renders them differently:
`limitByKey` formats `ttl.Round(time.Second)` (a `time.Duration`) with
`%s`, while the IP-path denial in `ServeHTTP` formats
`math.Round(ttl)` (a `float64`) with `%s`. -/
inductive Message
  | plain (text : String)
  | waitDuration (secondsRounded : Int)
  | waitSeconds (secondsRounded : Int)
deriving DecidableEq, Repr

/-- A rendered JSON response: HTTP status plus message. -/
structure Response where
  status : Nat
  message : Message
deriving DecidableEq, Repr

/-- `http.StatusText(http.StatusInternalServerError)`. -/
def internalServerErrorText : String := "Internal Server Error"

/-- The error returned by `readAddress` (defined outside this file): the
limiter only distinguishes `*malformedRequest` (carrying its own status
and message) from any other error. -/
inductive AddrError
  | malformedRequest (status : Nat) (message : String)
  | other
deriving DecidableEq, Repr

/-- What `Limiter.ServeHTTP` did up to (and excluding) the downstream
handler call. -/
inductive ServeResult
  | errorResponse (status : Nat) (message : String)
  | denied (resp : Response)
  | forwarded
deriving DecidableEq, Repr

/-- `ServeHTTP` outcome: the result together with the store after the
admission bookkeeping. -/
structure ServeOutcome where
  result : ServeResult
  store : Store

/-- `Limiter.limitByKey`: when the key has a live entry, the 429 denial
with the remaining TTL rounded to the nearest second, else nothing. -/
def Limiter.limitByKey (s : Store) (now : ℚ) (key : String) : Option Response :=
  match getWithTTL s now key with
  | some ttl => some ⟨429, Message.waitDuration (roundDurationToSecond ttl)⟩
  | none => none

/-- The minimum of the remaining TTLs of the four slot keys
`clientIP-0` .. `clientIP-3` (the `min(...)` in `ServeHTTP`). -/
def minSlotTTL (s : Store) (now : ℚ) (clientIP : String) : ℚ :=
  min (min (min (Limiter.checklimitByKey s now (clientIP ++ "-0"))
                (Limiter.checklimitByKey s now (clientIP ++ "-1")))
           (Limiter.checklimitByKey s now (clientIP ++ "-2")))
      (Limiter.checklimitByKey s now (clientIP ++ "-3"))

/-- The recording block of `ServeHTTP` (lines 78–89): set the address
key and the plain client-IP key with the configured TTL, then set the
first slot key whose remaining TTL is not positive, if any. -/
def Limiter.recordEntries (l : Limiter) (s : Store) (now : ℚ)
    (address clientIP : String) : Store :=
  let s1 := setWithTTL s now address l.ttl
  let s2 := setWithTTL s1 now clientIP l.ttl
  if Limiter.checklimitByKey s2 now (clientIP ++ "-0") ≤ 0 then
    setWithTTL s2 now (clientIP ++ "-0") l.ttl
  else if Limiter.checklimitByKey s2 now (clientIP ++ "-1") ≤ 0 then
    setWithTTL s2 now (clientIP ++ "-1") l.ttl
  else if Limiter.checklimitByKey s2 now (clientIP ++ "-2") ≤ 0 then
    setWithTTL s2 now (clientIP ++ "-2") l.ttl
  else if Limiter.checklimitByKey s2 now (clientIP ++ "-3") ≤ 0 then
    setWithTTL s2 now (clientIP ++ "-3") l.ttl
  else s2

/-- `Limiter.ServeHTTP` up to the downstream handler call: the
`readAddress` error branch, the disabled-TTL branch, the address-key
check, the IP/slot check, and the recording block. -/
def Limiter.ServeHTTP (l : Limiter) (s : Store) (now : ℚ)
    (addressResult : Except AddrError String) (clientIP : String) : ServeOutcome :=
  match addressResult with
  | .error (.malformedRequest st msg) => ⟨.errorResponse st msg, s⟩
  | .error .other => ⟨.errorResponse 500 internalServerErrorText, s⟩
  | .ok address =>
    if l.ttl ≤ 0 then ⟨.forwarded, s⟩
    else
      match Limiter.limitByKey s now address with
      | some resp => ⟨.denied resp, s⟩
      | none =>
        if 0 < Limiter.checklimitByKey s now clientIP then
          if 0 < minSlotTTL s now clientIP then
            ⟨.denied ⟨429, Message.waitSeconds (mathRound (minSlotTTL s now clientIP))⟩, s⟩
          else
            ⟨.forwarded, l.recordEntries s now address clientIP⟩
        else
          ⟨.forwarded, l.recordEntries s now address clientIP⟩

/-- The post-handler block of `ServeHTTP` (lines 93–98): when the
recorded downstream status differs from `http.StatusOK`, remove the
address entry and the plain client-IP entry. -/
def afterHandler (s : Store) (address clientIP : String) (status : Nat) : Store :=
  if status ≠ 200 then removeKey (removeKey s address) clientIP else s

/-- A request, as far as `getClientIPFromRequest` reads it. -/
structure Request where
  xForwardedFor : String
  remoteAddr : String

/-- Splitting a character list at every occurrence of `sep`, keeping
empty segments, as Go `strings.Split` does for a one-character
separator.  The result is always non-empty. -/
def splitChar (sep : Char) : List Char → List (List Char)
  | [] => [[]]
  | c :: cs =>
    match splitChar sep cs with
    | [] => [[]]
    | h :: t => if c = sep then [] :: h :: t else (c :: h) :: t

/-- Go `strings.Split(s, sep)` for a one-character separator. -/
def goSplit (sep : Char) (s : String) : List String :=
  (splitChar sep s.data).map (fun l => ⟨l⟩)

/-- Go `unicode.IsSpace` on the characters it recognises in Latin-1. -/
def isSpaceGo (c : Char) : Bool :=
  c = ' ' || c = '\t' || c = '\n' || c = '\x0b' || c = '\x0c' || c = '\r' ||
  c = '\x85' || c = '\xa0'

/-- Go `strings.TrimSpace`: drop leading and trailing white space. -/
def trimSpace (s : String) : String :=
  ⟨((s.data.dropWhile isSpaceGo).reverse.dropWhile isSpaceGo).reverse⟩

/-- `getClientIPFromRequest`.  `splitHostPort` stands for the Go
standard-library `net.SplitHostPort` projected to its host component:
`some host` on success, `none` on parse failure. -/
def getClientIPFromRequest (splitHostPort : String → Option String)
    (proxyCount : Int) (r : Request) : String :=
  if 0 < proxyCount ∧ r.xForwardedFor ≠ "" then
    let parts := goSplit ',' r.xForwardedFor
    let partIndex : Int := (parts.length : Int) - proxyCount
    let partIndex := if partIndex < 0 then 0 else partIndex
    trimSpace (parts.getD partIndex.toNat "")
  else
    match splitHostPort r.remoteAddr with
    | some host => host
    | none => r.remoteAddr

/-- Is a `ServeResult` an IP-path denial?  The IP path is the only one
producing the `math.Round`-formatted message. -/
def ServeResult.isIPDenial : ServeResult → Bool
  | .denied (Response.mk _ (Message.waitSeconds _)) => true
  | _ => false

/-- The four slot keys of a client identifier, in the fixed order the
source checks them. -/
def slotKeys (clientIP : String) : List String :=
  [clientIP ++ "-0", clientIP ++ "-1", clientIP ++ "-2", clientIP ++ "-3"]

/-- The first slot key, in the fixed order `-0`, `-1`, `-2`, `-3`, whose
remaining TTL is not positive, if any. -/
def firstFreeSlot (s : Store) (now : ℚ) (clientIP : String) : Option String :=
  if Limiter.checklimitByKey s now (clientIP ++ "-0") ≤ 0 then some (clientIP ++ "-0")
  else if Limiter.checklimitByKey s now (clientIP ++ "-1") ≤ 0 then some (clientIP ++ "-1")
  else if Limiter.checklimitByKey s now (clientIP ++ "-2") ≤ 0 then some (clientIP ++ "-2")
  else if Limiter.checklimitByKey s now (clientIP ++ "-3") ≤ 0 then some (clientIP ++ "-3")
  else none

/-! ## A concrete saturated store, used by witnesses -/

/-- A store holding the plain key `1.2.3.4` and all four of its slot
keys, all recorded at instant 0 with TTL 60. -/
def exampleSaturated : Store :=
  setWithTTL (setWithTTL (setWithTTL (setWithTTL (setWithTTL emptyStore 0 "1.2.3.4" 60)
    0 "1.2.3.4-0" 60) 0 "1.2.3.4-1" 60) 0 "1.2.3.4-2" 60) 0 "1.2.3.4-3" 60

/-- A host extractor standing for `net.SplitHostPort`, used in witnesses:
succeeds only on the one remote address the witness uses. -/
def hostOnly : String → Option String :=
  fun s => if s = "4.4.4.4:8080" then some "4.4.4.4" else none

/-! ## Basic store lemmas -/

theorem getWithTTL_pos {s : Store} {now : ℚ} {k : String} {t : ℚ}
    (h : getWithTTL s now k = some t) : 0 < t := by
  unfold getWithTTL at h
  split at h
  · simp at h
  · rename_i expiry heq
    split at h
    · rename_i hlt
      injection h with h
      subst h
      linarith
    · simp at h

theorem checklimitByKey_pos_iff (s : Store) (now : ℚ) (k : String) :
    0 < Limiter.checklimitByKey s now k ↔ (getWithTTL s now k).isSome := by
  unfold Limiter.checklimitByKey
  cases h : getWithTTL s now k with
  | none => simp
  | some t => simp [getWithTTL_pos h]

theorem checklimitByKey_nonpos_iff (s : Store) (now : ℚ) (k : String) :
    Limiter.checklimitByKey s now k ≤ 0 ↔ getWithTTL s now k = none := by
  rw [← not_lt, checklimitByKey_pos_iff]
  cases getWithTTL s now k <;> simp

theorem getWithTTL_set_self (s : Store) (now now' ttl : ℚ) (k : String) :
    getWithTTL (setWithTTL s now k ttl) now' k =
      if now' < now + ttl then some (now + ttl - now') else none := by
  simp [getWithTTL, setWithTTL]

theorem getWithTTL_set_other (s : Store) (now now' ttl : ℚ) {k k' : String}
    (h : k' ≠ k) :
    getWithTTL (setWithTTL s now k ttl) now' k' = getWithTTL s now' k' := by
  simp [getWithTTL, setWithTTL, h]

theorem setWithTTL_apply_other (s : Store) (now ttl : ℚ) {k k' : String}
    (h : k' ≠ k) : setWithTTL s now k ttl k' = s k' := by
  simp [setWithTTL, h]

theorem removeKey_apply_other (s : Store) {k k' : String} (h : k' ≠ k) :
    removeKey s k k' = s k' := by
  simp [removeKey, h]

/-! ## String key lemmas -/

theorem string_append_right_inj (s : String) {a b : String} :
    s ++ a = s ++ b ↔ a = b := by
  constructor
  · intro h
    have hd := congrArg String.data h
    simp only [String.data_append] at hd
    exact String.ext (List.append_cancel_left hd)
  · intro h
    rw [h]

theorem append_ne_of_ne (s : String) {a b : String} (h : a ≠ b) :
    s ++ a ≠ s ++ b :=
  fun he => h ((string_append_right_inj s).mp he)

theorem ne_self_append {s t : String} (h : t.length ≠ 0) : s ≠ s ++ t := by
  intro he
  have hl := congrArg String.length he
  rw [String.length_append] at hl
  omega

/-! ## Claim theorems -/

/-- C9. When `readAddress` fails, `ServeHTTP` short-circuits before any
rate-limit bookkeeping: the store is unchanged, the downstream handler is
not invoked, and the response carries the malformed-request status and
message, or 500 with the generic status text for any other error type. -/
theorem malformed_address_short_circuits (l : Limiter) (s : Store) (now : ℚ)
    (e : AddrError) (clientIP : String) :
    l.ServeHTTP s now (.error e) clientIP =
      ⟨(match e with
        | .malformedRequest st msg => ServeResult.errorResponse st msg
        | .other => ServeResult.errorResponse 500 internalServerErrorText), s⟩ := by
  cases e <;> rfl

/-- C6. With a nonpositive configured TTL, every request reaching the
limiter is forwarded to the downstream handler unconditionally, whatever
the store holds, and nothing is recorded. -/
theorem nonpositive_ttl_disables_limiting (l : Limiter) (s : Store) (now : ℚ)
    (address clientIP : String) (h : l.ttl ≤ 0) :
    l.ServeHTTP s now (.ok address) clientIP = ⟨.forwarded, s⟩ := by
  simp [Limiter.ServeHTTP, h]

theorem nonpositive_ttl_disables_limiting_witness :
    (Limiter.mk 0 0).ttl ≤ 0 ∧
      (Limiter.mk 0 0).ServeHTTP (setWithTTL emptyStore 0 "0xabc" 60) 1
          (.ok "0xabc") "1.2.3.4" =
        ⟨.forwarded, setWithTTL emptyStore 0 "0xabc" 60⟩ :=
  ⟨le_refl 0,
    nonpositive_ttl_disables_limiting (Limiter.mk 0 0)
      (setWithTTL emptyStore 0 "0xabc" 60) 1 "0xabc" "1.2.3.4" (le_refl 0)⟩

/-- C8. Expiring-store read semantics: a key recorded at instant `t0` with
TTL `t > 0` reads back, at any instant in `[t0, t0 + t)`, as present with
remaining TTL exactly `t0 + t - now` — which is positive, at most `t`, and
exactly linear decay, so no sequence of reads can increase it — and reads
back as absent from `t0 + t` on.  Reads are pure: `getWithTTL` returns no
modified store, matching `SkipTTLExtensionOnHit(true)`. -/
theorem store_read_semantics (s : Store) (k : String) (t0 t now' : ℚ)
    (ht : 0 < t) (hle : t0 ≤ now') :
    (now' < t0 + t →
      getWithTTL (setWithTTL s t0 k t) now' k = some (t0 + t - now') ∧
        t0 + t - now' ≤ t ∧ 0 < t0 + t - now') ∧
    (t0 + t ≤ now' → getWithTTL (setWithTTL s t0 k t) now' k = none) := by
  constructor
  · intro hlt
    refine ⟨?_, by linarith, by linarith⟩
    rw [getWithTTL_set_self, if_pos hlt]
  · intro hge
    rw [getWithTTL_set_self, if_neg (by linarith)]

theorem store_read_semantics_witness :
    ((0:ℚ) < 60 ∧ (0:ℚ) ≤ 30) ∧
      ((30 < (0:ℚ) + 60 →
        getWithTTL (setWithTTL emptyStore 0 "k" 60) 30 "k" =
            some ((0:ℚ) + 60 - 30) ∧
          (0:ℚ) + 60 - 30 ≤ 60 ∧ (0:ℚ) < 0 + 60 - 30) ∧
      ((0:ℚ) + 60 ≤ 30 → getWithTTL (setWithTTL emptyStore 0 "k" 60) 30 "k" = none)) :=
  ⟨⟨by norm_num, by norm_num⟩,
    store_read_semantics emptyStore "k" 0 60 30 (by norm_num) (by norm_num)⟩

/-- C3. A live claimed-address entry denies immediately: status 429, the
message carrying the remaining TTL of the address entry rounded to the
nearest second, and the store untouched; the outcome is the same for every
client identifier, and no client-identifier or slot key influences it. -/
theorem live_address_denies (l : Limiter) (s : Store) (now t : ℚ)
    (address clientIP : String) (httl : 0 < l.ttl)
    (hlive : getWithTTL s now address = some t) :
    l.ServeHTTP s now (.ok address) clientIP =
      ⟨.denied ⟨429, Message.waitDuration (roundDurationToSecond t)⟩, s⟩ := by
  simp [Limiter.ServeHTTP, Limiter.limitByKey, hlive, not_le.mpr httl]

theorem live_address_denies_witness :
    ((0:ℚ) < 60 ∧
      getWithTTL (setWithTTL emptyStore 0 "0xabc" 60) 1 "0xabc" = some 59) ∧
      (Limiter.mk 0 60).ServeHTTP (setWithTTL emptyStore 0 "0xabc" 60) 1
          (.ok "0xabc") "9.9.9.9" =
        ⟨.denied ⟨429, Message.waitDuration (roundDurationToSecond 59)⟩,
          setWithTTL emptyStore 0 "0xabc" 60⟩ := by
  have hlive : getWithTTL (setWithTTL emptyStore 0 "0xabc" 60) 1 "0xabc" = some 59 := by
    rw [getWithTTL_set_self]
    norm_num
  exact ⟨⟨by norm_num, hlive⟩,
    live_address_denies (Limiter.mk 0 60) (setWithTTL emptyStore 0 "0xabc" 60)
      1 59 "0xabc" "9.9.9.9" (by norm_num) hlive⟩

/-- C10. Denial atomicity: whenever `ServeHTTP` denies — on the address
path or on the IP path — the store it returns is exactly the store it was
given: nothing inserted, nothing removed, no TTL modified. -/
theorem denial_leaves_store_unchanged (l : Limiter) (s : Store) (now : ℚ)
    (ar : Except AddrError String) (clientIP : String) (resp : Response)
    (h : (l.ServeHTTP s now ar clientIP).result = .denied resp) :
    (l.ServeHTTP s now ar clientIP).store = s := by
  cases ar with
  | error e => cases e <;> rfl
  | ok address =>
    by_cases httl : l.ttl ≤ 0
    · simp [Limiter.ServeHTTP, httl]
    · cases hlim : Limiter.limitByKey s now address with
      | some r => simp [Limiter.ServeHTTP, httl, hlim]
      | none =>
        by_cases hip : 0 < Limiter.checklimitByKey s now clientIP
        · by_cases hmin : 0 < minSlotTTL s now clientIP
          · simp [Limiter.ServeHTTP, httl, hlim, hip, hmin]
          · simp [Limiter.ServeHTTP, httl, hlim, hip, hmin] at h
        · simp [Limiter.ServeHTTP, httl, hlim, hip] at h

theorem denial_leaves_store_unchanged_witness :
    ((Limiter.mk 0 60).ServeHTTP (setWithTTL emptyStore 0 "0xdef" 60) 2
          (.ok "0xdef") "5.6.7.8").result =
        .denied ⟨429, Message.waitDuration 58⟩ ∧
      ((Limiter.mk 0 60).ServeHTTP (setWithTTL emptyStore 0 "0xdef" 60) 2
          (.ok "0xdef") "5.6.7.8").store = setWithTTL emptyStore 0 "0xdef" 60 := by
  have hlive : getWithTTL (setWithTTL emptyStore 0 "0xdef" 60) 2 "0xdef" = some 58 := by
    rw [getWithTTL_set_self]
    norm_num
  have h60 : ¬ ((Limiter.mk 0 60).ttl ≤ 0) := by norm_num
  have hr : ((Limiter.mk 0 60).ServeHTTP (setWithTTL emptyStore 0 "0xdef" 60) 2
      (.ok "0xdef") "5.6.7.8").result = .denied ⟨429, Message.waitDuration 58⟩ := by
    simp [Limiter.ServeHTTP, Limiter.limitByKey, hlive, h60, roundDurationToSecond]
  exact ⟨hr, denial_leaves_store_unchanged (Limiter.mk 0 60)
    (setWithTTL emptyStore 0 "0xdef" 60) 2 (.ok "0xdef") "5.6.7.8"
    ⟨429, Message.waitDuration 58⟩ hr⟩

theorem exampleSaturated_addr_absent :
    getWithTTL exampleSaturated 10 "0xnew" = none := by
  decide

theorem exampleSaturated_check_ip :
    Limiter.checklimitByKey exampleSaturated 10 "1.2.3.4" = 50 := by
  have h : getWithTTL exampleSaturated 10 "1.2.3.4" = some 50 := by
    simp [exampleSaturated, getWithTTL, setWithTTL, emptyStore]
    norm_num
  rw [Limiter.checklimitByKey, h]

theorem exampleSaturated_min :
    minSlotTTL exampleSaturated 10 "1.2.3.4" = 50 := by
  have h0 : getWithTTL exampleSaturated 10 "1.2.3.4-0" = some 50 := by
    simp [exampleSaturated, getWithTTL, setWithTTL, emptyStore]
    norm_num
  have h1 : getWithTTL exampleSaturated 10 "1.2.3.4-1" = some 50 := by
    simp [exampleSaturated, getWithTTL, setWithTTL, emptyStore]
    norm_num
  have h2 : getWithTTL exampleSaturated 10 "1.2.3.4-2" = some 50 := by
    simp [exampleSaturated, getWithTTL, setWithTTL, emptyStore]
    norm_num
  have h3 : getWithTTL exampleSaturated 10 "1.2.3.4-3" = some 50 := by
    simp [exampleSaturated, getWithTTL, setWithTTL, emptyStore]
    norm_num
  simp [minSlotTTL, Limiter.checklimitByKey, h0, h1, h2, h3]

/-- C1. IP-grounds denial characterisation: with limiting enabled and the
address key not live, the request is denied on IP grounds exactly when the
plain client-identifier key is live and the minimum remaining TTL across
the four slot keys is positive — which holds exactly when all four slot
keys are live; and whenever the plain key or some slot key is absent or
expired, the request is not denied on IP grounds, unconditionally. -/
theorem ip_denial_characterization (l : Limiter) (s : Store) (now : ℚ)
    (address clientIP : String) :
    (0 < minSlotTTL s now clientIP ↔
      ((getWithTTL s now (clientIP ++ "-0")).isSome ∧
       (getWithTTL s now (clientIP ++ "-1")).isSome ∧
       (getWithTTL s now (clientIP ++ "-2")).isSome ∧
       (getWithTTL s now (clientIP ++ "-3")).isSome)) ∧
    (0 < l.ttl → getWithTTL s now address = none →
      ((l.ServeHTTP s now (.ok address) clientIP).result.isIPDenial = true ↔
        ((getWithTTL s now clientIP).isSome ∧ 0 < minSlotTTL s now clientIP))) ∧
    ((¬ (getWithTTL s now clientIP).isSome ∨ ¬ 0 < minSlotTTL s now clientIP) →
      (l.ServeHTTP s now (.ok address) clientIP).result.isIPDenial = false) := by
  refine ⟨?_, ?_, ?_⟩
  · simp [minSlotTTL, lt_min_iff, checklimitByKey_pos_iff, and_assoc]
  · intro httl haddr
    have hlim : Limiter.limitByKey s now address = none := by
      simp [Limiter.limitByKey, haddr]
    by_cases hip : 0 < Limiter.checklimitByKey s now clientIP
    · by_cases hminp : 0 < minSlotTTL s now clientIP
      · simp [Limiter.ServeHTTP, hlim, not_le.mpr httl, hip, hminp,
          ServeResult.isIPDenial, (checklimitByKey_pos_iff s now clientIP).mp hip]
      · simp [Limiter.ServeHTTP, hlim, not_le.mpr httl, hip, hminp,
          ServeResult.isIPDenial]
    · simp [Limiter.ServeHTTP, hlim, not_le.mpr httl, hip, ServeResult.isIPDenial,
        (not_congr (checklimitByKey_pos_iff s now clientIP)).mp hip]
  · intro hdisj
    by_cases httl : l.ttl ≤ 0
    · simp [Limiter.ServeHTTP, httl, ServeResult.isIPDenial]
    · cases haddr : getWithTTL s now address with
      | some t =>
        simp [Limiter.ServeHTTP, Limiter.limitByKey, haddr, httl,
          ServeResult.isIPDenial]
      | none =>
        have hlim : Limiter.limitByKey s now address = none := by
          simp [Limiter.limitByKey, haddr]
        by_cases hip : 0 < Limiter.checklimitByKey s now clientIP
        · by_cases hminp : 0 < minSlotTTL s now clientIP
          · rcases hdisj with hd | hd
            · exact absurd ((checklimitByKey_pos_iff s now clientIP).mp hip) hd
            · exact absurd hminp hd
          · simp [Limiter.ServeHTTP, hlim, httl, hip, hminp, ServeResult.isIPDenial]
        · simp [Limiter.ServeHTTP, hlim, httl, hip, ServeResult.isIPDenial]

theorem ip_denial_characterization_witness :
    ((0:ℚ) < (Limiter.mk 0 60).ttl ∧
        getWithTTL exampleSaturated 10 "0xnew" = none) ∧
      (((Limiter.mk 0 60).ServeHTTP exampleSaturated 10 (.ok "0xnew")
            "1.2.3.4").result.isIPDenial = true ↔
        ((getWithTTL exampleSaturated 10 "1.2.3.4").isSome ∧
          0 < minSlotTTL exampleSaturated 10 "1.2.3.4")) :=
  ⟨⟨by norm_num, exampleSaturated_addr_absent⟩,
    (ip_denial_characterization (Limiter.mk 0 60) exampleSaturated 10 "0xnew"
        "1.2.3.4").2.1 (by norm_num) exampleSaturated_addr_absent⟩

/-- C4. Every IP-path denial responds with status 429 and a message whose
rendered wait time is the minimum remaining TTL across the four slot keys,
rounded by `math.Round` to the nearest whole second — an integer count of
seconds, in a different rendering from the `time.Duration`-formatted
address-path message. -/
theorem ip_denial_renders_min_slot (l : Limiter) (s : Store) (now : ℚ)
    (address clientIP : String) (st : Nat) (n : Int)
    (h : (l.ServeHTTP s now (.ok address) clientIP).result =
      .denied ⟨st, Message.waitSeconds n⟩) :
    st = 429 ∧ n = mathRound (minSlotTTL s now clientIP) := by
  by_cases httl : l.ttl ≤ 0
  · simp [Limiter.ServeHTTP, httl] at h
  · cases haddr : getWithTTL s now address with
    | some t =>
      simp [Limiter.ServeHTTP, Limiter.limitByKey, haddr, httl] at h
    | none =>
      have hlim : Limiter.limitByKey s now address = none := by
        simp [Limiter.limitByKey, haddr]
      by_cases hip : 0 < Limiter.checklimitByKey s now clientIP
      · by_cases hminp : 0 < minSlotTTL s now clientIP
        · simp [Limiter.ServeHTTP, hlim, httl, hip, hminp] at h
          exact ⟨h.1.symm, h.2.symm⟩
        · simp [Limiter.ServeHTTP, hlim, httl, hip, hminp] at h
      · simp [Limiter.ServeHTTP, hlim, httl, hip] at h

theorem ip_denial_renders_min_slot_witness :
    ((Limiter.mk 0 60).ServeHTTP exampleSaturated 10 (.ok "0xnew")
          "1.2.3.4").result = .denied ⟨429, Message.waitSeconds 50⟩ ∧
      (429 = 429 ∧ (50:Int) = mathRound (minSlotTTL exampleSaturated 10 "1.2.3.4")) := by
  have hlim : Limiter.limitByKey exampleSaturated 10 "0xnew" = none := by
    simp [Limiter.limitByKey, exampleSaturated_addr_absent]
  have h60 : ¬ ((Limiter.mk 0 60).ttl ≤ 0) := by norm_num
  have hr : ((Limiter.mk 0 60).ServeHTTP exampleSaturated 10 (.ok "0xnew")
      "1.2.3.4").result = .denied ⟨429, Message.waitSeconds 50⟩ := by
    norm_num [Limiter.ServeHTTP, hlim, h60, exampleSaturated_check_ip,
      exampleSaturated_min, mathRound, round_eq]
  exact ⟨hr, ip_denial_renders_min_slot (Limiter.mk 0 60) exampleSaturated 10
    "0xnew" "1.2.3.4" 429 50 hr⟩

/-- C7. Client identifier resolution: with a positive hop count and a
non-empty forwarded-for header, the resolver splits the header on commas
and returns the whitespace-trimmed segment at index
`segmentCount - proxyHopCount`, clamped to 0 when negative — so the
header of the worked example resolves to `3.3.3.3` at hop count 1 and to
`1.1.1.1` at hop count 5; otherwise it returns the host portion of the
remote address when `host:port` parsing succeeds and the raw remote
address when it fails. -/
theorem client_ip_resolution (spp : String → Option String) :
    (∀ (pc : Int) (r : Request), 0 < pc → r.xForwardedFor ≠ "" →
      getClientIPFromRequest spp pc r =
        trimSpace ((goSplit ',' r.xForwardedFor).getD
          (if ((goSplit ',' r.xForwardedFor).length : Int) - pc < 0 then 0
           else ((goSplit ',' r.xForwardedFor).length : Int) - pc).toNat "")) ∧
    (∀ (pc : Int) (r : Request), ¬ 0 < pc ∨ r.xForwardedFor = "" →
      getClientIPFromRequest spp pc r =
        (match spp r.remoteAddr with
         | some host => host
         | none => r.remoteAddr)) ∧
    (∀ r : Request, r.xForwardedFor = "1.1.1.1, 2.2.2.2, 3.3.3.3" →
      getClientIPFromRequest spp 1 r = "3.3.3.3" ∧
      getClientIPFromRequest spp 5 r = "1.1.1.1") := by
  refine ⟨?_, ?_, ?_⟩
  · intro pc r h1 h2
    simp [getClientIPFromRequest, h1, h2]
  · intro pc r h
    rcases h with h | h
    · simp [getClientIPFromRequest, h]
    · simp [getClientIPFromRequest, h]
  · intro r hx
    constructor
    · simp [getClientIPFromRequest, hx]
      decide
    · simp [getClientIPFromRequest, hx]
      decide

theorem client_ip_resolution_witness :
    (Request.mk "1.1.1.1, 2.2.2.2, 3.3.3.3" "4.4.4.4:8080").xForwardedFor =
        "1.1.1.1, 2.2.2.2, 3.3.3.3" ∧
      (getClientIPFromRequest hostOnly 1
          (Request.mk "1.1.1.1, 2.2.2.2, 3.3.3.3" "4.4.4.4:8080") = "3.3.3.3" ∧
        getClientIPFromRequest hostOnly 5
          (Request.mk "1.1.1.1, 2.2.2.2, 3.3.3.3" "4.4.4.4:8080") = "1.1.1.1") :=
  ⟨rfl, (client_ip_resolution hostOnly).2.2
    (Request.mk "1.1.1.1, 2.2.2.2, 3.3.3.3" "4.4.4.4:8080") rfl⟩

/-- What the recording block does, in terms of the pre-state: the address
key and the plain client-IP key hold fresh entries with the configured
TTL; the first slot key that was free in the pre-state (if any) holds a
fresh entry and every other slot key is untouched; with all four slots
live, every slot key is untouched.  The disequalities keep the address
key from aliasing a slot key. -/
theorem recordEntries_spec (l : Limiter) (s : Store) (now : ℚ) (address ip : String)
    (httl : 0 < l.ttl)
    (h0 : address ≠ ip ++ "-0") (h1 : address ≠ ip ++ "-1")
    (h2 : address ≠ ip ++ "-2") (h3 : address ≠ ip ++ "-3") :
    getWithTTL (l.recordEntries s now address ip) now address = some l.ttl ∧
    getWithTTL (l.recordEntries s now address ip) now ip = some l.ttl ∧
    (match firstFreeSlot s now ip with
     | some k =>
         getWithTTL (l.recordEntries s now address ip) now k = some l.ttl ∧
           ∀ j ∈ slotKeys ip, j ≠ k → l.recordEntries s now address ip j = s j
     | none => ∀ j ∈ slotKeys ip, l.recordEntries s now address ip j = s j) := by
  have hipne0 : ip ≠ ip ++ "-0" := ne_self_append (by decide)
  have hipne1 : ip ≠ ip ++ "-1" := ne_self_append (by decide)
  have hipne2 : ip ≠ ip ++ "-2" := ne_self_append (by decide)
  have hipne3 : ip ≠ ip ++ "-3" := ne_self_append (by decide)
  set s2 := setWithTTL (setWithTTL s now address l.ttl) now ip l.ttl with hs2
  have haddr2 : getWithTTL s2 now address = some l.ttl := by
    by_cases hai : address = ip
    · rw [hs2, hai, getWithTTL_set_self, if_pos (by linarith)]
      congr 1
      ring
    · rw [hs2, getWithTTL_set_other _ _ _ _ hai, getWithTTL_set_self,
        if_pos (by linarith)]
      congr 1
      ring
  have hipv : getWithTTL s2 now ip = some l.ttl := by
    rw [hs2, getWithTTL_set_self, if_pos (by linarith)]
    congr 1
    ring
  have hslot_unchanged : ∀ j, j ≠ ip → j ≠ address → s2 j = s j := by
    intro j hji hja
    rw [hs2, setWithTTL_apply_other _ _ _ hji, setWithTTL_apply_other _ _ _ hja]
  have hk0s : s2 (ip ++ "-0") = s (ip ++ "-0") :=
    hslot_unchanged _ hipne0.symm (Ne.symm h0)
  have hk1s : s2 (ip ++ "-1") = s (ip ++ "-1") :=
    hslot_unchanged _ hipne1.symm (Ne.symm h1)
  have hk2s : s2 (ip ++ "-2") = s (ip ++ "-2") :=
    hslot_unchanged _ hipne2.symm (Ne.symm h2)
  have hk3s : s2 (ip ++ "-3") = s (ip ++ "-3") :=
    hslot_unchanged _ hipne3.symm (Ne.symm h3)
  have c0 : Limiter.checklimitByKey s2 now (ip ++ "-0") =
      Limiter.checklimitByKey s now (ip ++ "-0") := by
    unfold Limiter.checklimitByKey
    rw [hs2, getWithTTL_set_other _ _ _ _ hipne0.symm,
      getWithTTL_set_other _ _ _ _ (Ne.symm h0)]
  have c1 : Limiter.checklimitByKey s2 now (ip ++ "-1") =
      Limiter.checklimitByKey s now (ip ++ "-1") := by
    unfold Limiter.checklimitByKey
    rw [hs2, getWithTTL_set_other _ _ _ _ hipne1.symm,
      getWithTTL_set_other _ _ _ _ (Ne.symm h1)]
  have c2 : Limiter.checklimitByKey s2 now (ip ++ "-2") =
      Limiter.checklimitByKey s now (ip ++ "-2") := by
    unfold Limiter.checklimitByKey
    rw [hs2, getWithTTL_set_other _ _ _ _ hipne2.symm,
      getWithTTL_set_other _ _ _ _ (Ne.symm h2)]
  have c3 : Limiter.checklimitByKey s2 now (ip ++ "-3") =
      Limiter.checklimitByKey s now (ip ++ "-3") := by
    unfold Limiter.checklimitByKey
    rw [hs2, getWithTTL_set_other _ _ _ _ hipne3.symm,
      getWithTTL_set_other _ _ _ _ (Ne.symm h3)]
  have hrec : l.recordEntries s now address ip =
      (if Limiter.checklimitByKey s now (ip ++ "-0") ≤ 0 then
        setWithTTL s2 now (ip ++ "-0") l.ttl
      else if Limiter.checklimitByKey s now (ip ++ "-1") ≤ 0 then
        setWithTTL s2 now (ip ++ "-1") l.ttl
      else if Limiter.checklimitByKey s now (ip ++ "-2") ≤ 0 then
        setWithTTL s2 now (ip ++ "-2") l.ttl
      else if Limiter.checklimitByKey s now (ip ++ "-3") ≤ 0 then
        setWithTTL s2 now (ip ++ "-3") l.ttl
      else s2) := by
    simp only [Limiter.recordEntries]
    rw [← hs2, c0, c1, c2, c3]
  rw [hrec]
  unfold firstFreeSlot
  by_cases f0 : Limiter.checklimitByKey s now (ip ++ "-0") ≤ 0
  · simp only [if_pos f0]
    refine ⟨?_, ?_, ?_, ?_⟩
    · rw [getWithTTL_set_other _ _ _ _ h0]
      exact haddr2
    · rw [getWithTTL_set_other _ _ _ _ hipne0]
      exact hipv
    · rw [getWithTTL_set_self, if_pos (by linarith)]
      congr 1
      ring
    · intro j hj hne
      simp [slotKeys] at hj
      rcases hj with rfl | rfl | rfl | rfl
      · exact absurd rfl hne
      · rw [setWithTTL_apply_other _ _ _ (append_ne_of_ne ip (by decide))]
        exact hk1s
      · rw [setWithTTL_apply_other _ _ _ (append_ne_of_ne ip (by decide))]
        exact hk2s
      · rw [setWithTTL_apply_other _ _ _ (append_ne_of_ne ip (by decide))]
        exact hk3s
  · simp only [if_neg f0]
    by_cases f1 : Limiter.checklimitByKey s now (ip ++ "-1") ≤ 0
    · simp only [if_pos f1]
      refine ⟨?_, ?_, ?_, ?_⟩
      · rw [getWithTTL_set_other _ _ _ _ h1]
        exact haddr2
      · rw [getWithTTL_set_other _ _ _ _ hipne1]
        exact hipv
      · rw [getWithTTL_set_self, if_pos (by linarith)]
        congr 1
        ring
      · intro j hj hne
        simp [slotKeys] at hj
        rcases hj with rfl | rfl | rfl | rfl
        · rw [setWithTTL_apply_other _ _ _ (append_ne_of_ne ip (by decide))]
          exact hk0s
        · exact absurd rfl hne
        · rw [setWithTTL_apply_other _ _ _ (append_ne_of_ne ip (by decide))]
          exact hk2s
        · rw [setWithTTL_apply_other _ _ _ (append_ne_of_ne ip (by decide))]
          exact hk3s
    · simp only [if_neg f1]
      by_cases f2 : Limiter.checklimitByKey s now (ip ++ "-2") ≤ 0
      · simp only [if_pos f2]
        refine ⟨?_, ?_, ?_, ?_⟩
        · rw [getWithTTL_set_other _ _ _ _ h2]
          exact haddr2
        · rw [getWithTTL_set_other _ _ _ _ hipne2]
          exact hipv
        · rw [getWithTTL_set_self, if_pos (by linarith)]
          congr 1
          ring
        · intro j hj hne
          simp [slotKeys] at hj
          rcases hj with rfl | rfl | rfl | rfl
          · rw [setWithTTL_apply_other _ _ _ (append_ne_of_ne ip (by decide))]
            exact hk0s
          · rw [setWithTTL_apply_other _ _ _ (append_ne_of_ne ip (by decide))]
            exact hk1s
          · exact absurd rfl hne
          · rw [setWithTTL_apply_other _ _ _ (append_ne_of_ne ip (by decide))]
            exact hk3s
      · simp only [if_neg f2]
        by_cases f3 : Limiter.checklimitByKey s now (ip ++ "-3") ≤ 0
        · simp only [if_pos f3]
          refine ⟨?_, ?_, ?_, ?_⟩
          · rw [getWithTTL_set_other _ _ _ _ h3]
            exact haddr2
          · rw [getWithTTL_set_other _ _ _ _ hipne3]
            exact hipv
          · rw [getWithTTL_set_self, if_pos (by linarith)]
            congr 1
            ring
          · intro j hj hne
            simp [slotKeys] at hj
            rcases hj with rfl | rfl | rfl | rfl
            · rw [setWithTTL_apply_other _ _ _ (append_ne_of_ne ip (by decide))]
              exact hk0s
            · rw [setWithTTL_apply_other _ _ _ (append_ne_of_ne ip (by decide))]
              exact hk1s
            · rw [setWithTTL_apply_other _ _ _ (append_ne_of_ne ip (by decide))]
              exact hk2s
            · exact absurd rfl hne
        · simp only [if_neg f3]
          refine ⟨haddr2, hipv, ?_⟩
          intro j hj
          simp [slotKeys] at hj
          rcases hj with rfl | rfl | rfl | rfl
          · exact hk0s
          · exact hk1s
          · exact hk2s
          · exact hk3s

/-- C5. Recording on admission: every forwarded request (with limiting
enabled, and the claimed address not aliasing a slot key) leaves the
address key and the plain client-identifier key holding fresh entries
with the configured TTL; exactly the first slot key in the fixed order
`-0`, `-1`, `-2`, `-3` without a live entry receives a fresh entry,
the other slot keys being untouched; and when all four slot keys are
live, no slot entry is recorded. -/
theorem admitted_request_recording (l : Limiter) (s : Store) (now : ℚ)
    (address ip : String) (httl : 0 < l.ttl)
    (hfwd : (l.ServeHTTP s now (.ok address) ip).result = .forwarded)
    (h0 : address ≠ ip ++ "-0") (h1 : address ≠ ip ++ "-1")
    (h2 : address ≠ ip ++ "-2") (h3 : address ≠ ip ++ "-3") :
    getWithTTL ((l.ServeHTTP s now (.ok address) ip).store) now address = some l.ttl ∧
    getWithTTL ((l.ServeHTTP s now (.ok address) ip).store) now ip = some l.ttl ∧
    (match firstFreeSlot s now ip with
     | some k =>
         getWithTTL ((l.ServeHTTP s now (.ok address) ip).store) now k = some l.ttl ∧
           ∀ j ∈ slotKeys ip, j ≠ k → (l.ServeHTTP s now (.ok address) ip).store j = s j
     | none => ∀ j ∈ slotKeys ip, (l.ServeHTTP s now (.ok address) ip).store j = s j) := by
  have hstore : (l.ServeHTTP s now (.ok address) ip).store =
      l.recordEntries s now address ip := by
    cases hlim : Limiter.limitByKey s now address with
    | some r => simp [Limiter.ServeHTTP, hlim, not_le.mpr httl] at hfwd
    | none =>
      by_cases hip : 0 < Limiter.checklimitByKey s now ip
      · by_cases hminp : 0 < minSlotTTL s now ip
        · simp [Limiter.ServeHTTP, hlim, not_le.mpr httl, hip, hminp] at hfwd
        · simp [Limiter.ServeHTTP, hlim, not_le.mpr httl, hip, hminp]
      · simp [Limiter.ServeHTTP, hlim, not_le.mpr httl, hip]
  rw [hstore]
  exact recordEntries_spec l s now address ip httl h0 h1 h2 h3

theorem admitted_request_recording_witness :
    ((0:ℚ) < (Limiter.mk 0 60).ttl ∧
      ((Limiter.mk 0 60).ServeHTTP emptyStore 0 (.ok "0xabc") "7.7.7.7").result =
        .forwarded ∧
      ("0xabc" : String) ≠ "7.7.7.7" ++ "-0" ∧
      ("0xabc" : String) ≠ "7.7.7.7" ++ "-1" ∧
      ("0xabc" : String) ≠ "7.7.7.7" ++ "-2" ∧
      ("0xabc" : String) ≠ "7.7.7.7" ++ "-3") ∧
    (getWithTTL ((Limiter.mk 0 60).ServeHTTP emptyStore 0 (.ok "0xabc")
          "7.7.7.7").store 0 "0xabc" = some (Limiter.mk 0 60).ttl ∧
      getWithTTL ((Limiter.mk 0 60).ServeHTTP emptyStore 0 (.ok "0xabc")
          "7.7.7.7").store 0 "7.7.7.7" = some (Limiter.mk 0 60).ttl ∧
      (match firstFreeSlot emptyStore 0 "7.7.7.7" with
       | some k =>
           getWithTTL ((Limiter.mk 0 60).ServeHTTP emptyStore 0 (.ok "0xabc")
               "7.7.7.7").store 0 k = some (Limiter.mk 0 60).ttl ∧
             ∀ j ∈ slotKeys "7.7.7.7", j ≠ k →
               ((Limiter.mk 0 60).ServeHTTP emptyStore 0 (.ok "0xabc")
                 "7.7.7.7").store j = emptyStore j
       | none => ∀ j ∈ slotKeys "7.7.7.7",
           ((Limiter.mk 0 60).ServeHTTP emptyStore 0 (.ok "0xabc")
             "7.7.7.7").store j = emptyStore j)) := by
  have hfwd : ((Limiter.mk 0 60).ServeHTTP emptyStore 0 (.ok "0xabc")
      "7.7.7.7").result = .forwarded := by decide
  exact ⟨⟨by norm_num, hfwd, by decide, by decide, by decide, by decide⟩,
    admitted_request_recording (Limiter.mk 0 60) emptyStore 0 "0xabc" "7.7.7.7"
      (by norm_num) hfwd (by decide) (by decide) (by decide) (by decide)⟩

/-- C2, counterexample. Status 204 is a success (2xx) status, for which
the claim asserts no entry is removed; the rollback nevertheless fires,
because the source compares the recorded status against 200 exactly: the
address entry recorded at admission is gone afterwards. -/
theorem rollback_on_success_status_counterexample :
    (200 ≤ 204 ∧ 204 < 300) ∧
      afterHandler (setWithTTL (setWithTTL emptyStore 0 "0xabc" 60) 0 "1.2.3.4" 60)
          "0xabc" "1.2.3.4" 204 "0xabc" = none ∧
      setWithTTL (setWithTTL emptyStore 0 "0xabc" 60) 0 "1.2.3.4" 60 "0xabc" ≠ none := by
  refine ⟨by norm_num, by decide, by decide⟩

/-- C2, amended. The rollback fires exactly when the downstream status
differs from 200 (`http.StatusOK`) — not merely on non-2xx — and then
removes exactly the claimed-address entry and the plain client-identifier
entry: every other key, the four slot keys included, is untouched, and a
subsequent request with the same address passes the address check at any
later instant; when the status is exactly 200 nothing is removed. -/
theorem rollback_semantics (s : Store) (address ip : String) (status : Nat)
    (now' : ℚ)
    (h0 : address ≠ ip ++ "-0") (h1 : address ≠ ip ++ "-1")
    (h2 : address ≠ ip ++ "-2") (h3 : address ≠ ip ++ "-3") :
    (status ≠ 200 →
      afterHandler s address ip status address = none ∧
      afterHandler s address ip status ip = none ∧
      (∀ k, k ≠ address → k ≠ ip → afterHandler s address ip status k = s k) ∧
      (∀ j ∈ slotKeys ip, afterHandler s address ip status j = s j) ∧
      Limiter.limitByKey (afterHandler s address ip status) now' address = none) ∧
    (status = 200 → afterHandler s address ip status = s) := by
  have hi0 : ip ++ "-0" ≠ ip := Ne.symm (ne_self_append (by decide))
  have hi1 : ip ++ "-1" ≠ ip := Ne.symm (ne_self_append (by decide))
  have hi2 : ip ++ "-2" ≠ ip := Ne.symm (ne_self_append (by decide))
  have hi3 : ip ++ "-3" ≠ ip := Ne.symm (ne_self_append (by decide))
  constructor
  · intro hne
    have hrm : afterHandler s address ip status = removeKey (removeKey s address) ip := by
      rw [afterHandler, if_pos hne]
    refine ⟨?_, ?_, ?_, ?_, ?_⟩
    · simp [hrm, removeKey]
    · simp [hrm, removeKey]
    · intro k hka hki
      simp [hrm, removeKey, hka, hki]
    · intro j hj
      simp [slotKeys] at hj
      rcases hj with rfl | rfl | rfl | rfl
      · simp [hrm, removeKey, hi0, Ne.symm h0]
      · simp [hrm, removeKey, hi1, Ne.symm h1]
      · simp [hrm, removeKey, hi2, Ne.symm h2]
      · simp [hrm, removeKey, hi3, Ne.symm h3]
    · simp [hrm, Limiter.limitByKey, getWithTTL, removeKey]
  · intro h200
    rw [afterHandler, if_neg (by simp [h200])]

theorem rollback_semantics_witness :
    (("0xabc" : String) ≠ "1.2.3.4" ++ "-0" ∧
      ("0xabc" : String) ≠ "1.2.3.4" ++ "-1" ∧
      ("0xabc" : String) ≠ "1.2.3.4" ++ "-2" ∧
      ("0xabc" : String) ≠ "1.2.3.4" ++ "-3" ∧ 204 ≠ 200) ∧
    (afterHandler (setWithTTL (setWithTTL emptyStore 0 "0xabc" 60) 0 "1.2.3.4" 60)
        "0xabc" "1.2.3.4" 204 "0xabc" = none ∧
      afterHandler (setWithTTL (setWithTTL emptyStore 0 "0xabc" 60) 0 "1.2.3.4" 60)
        "0xabc" "1.2.3.4" 204 "1.2.3.4" = none ∧
      (∀ k, k ≠ "0xabc" → k ≠ "1.2.3.4" →
        afterHandler (setWithTTL (setWithTTL emptyStore 0 "0xabc" 60) 0 "1.2.3.4" 60)
          "0xabc" "1.2.3.4" 204 k =
          setWithTTL (setWithTTL emptyStore 0 "0xabc" 60) 0 "1.2.3.4" 60 k) ∧
      (∀ j ∈ slotKeys "1.2.3.4",
        afterHandler (setWithTTL (setWithTTL emptyStore 0 "0xabc" 60) 0 "1.2.3.4" 60)
          "0xabc" "1.2.3.4" 204 j =
          setWithTTL (setWithTTL emptyStore 0 "0xabc" 60) 0 "1.2.3.4" 60 j) ∧
      Limiter.limitByKey
        (afterHandler (setWithTTL (setWithTTL emptyStore 0 "0xabc" 60) 0 "1.2.3.4" 60)
          "0xabc" "1.2.3.4" 204) 10 "0xabc" = none) :=
  ⟨⟨by decide, by decide, by decide, by decide, by decide⟩,
    (rollback_semantics (setWithTTL (setWithTTL emptyStore 0 "0xabc" 60) 0 "1.2.3.4" 60)
        "0xabc" "1.2.3.4" 204 10 (by decide) (by decide) (by decide) (by decide)).1
      (by decide)⟩

end EvmFaucet
